import Mathlib

/-!
Verification development for the nomad-media-player core: the client-side
encryption/authentication layer (`src/services/crypto.ts`, `src/App.tsx`)
and the multi-tier proxy failover fetcher plus feed cache
(`src/services/proxy.ts`, `src/services/mediaResolver.ts`).

Conventions of the embedding:
* JS byte buffers (`Uint8Array` / `ArrayBuffer`) are `List Nat` whose
  elements are < 256 where byte-ness matters (stated as hypotheses).
* JS strings are Lean `String`s; `String.data` gives the character list.
* Fallible operations return `Option` or `Except`; a thrown JS exception is
  the error case.
* Browser builtins that the repository merely calls (`window.btoa`,
  `window.atob`, `TextEncoder`, `TextDecoder`) are implemented here with
  their standard semantics; cryptographic primitives from WebCrypto
  (AES-GCM, PBKDF2, SHA-256) are external to the repository and are
  modelled from the spec as ideal functionalities (see their doc comments).
-/

/-! ## Base64 (`window.btoa` / `window.atob` semantics on byte lists) -/

/-- Maps a base64 alphabet character to its 6-bit value, `none` for
characters outside the alphabet (including `=`). -/
def charToSextet (c : Char) : Option Nat :=
  let n := c.toNat
  if 65 ≤ n ∧ n ≤ 90 then some (n - 65)
  else if 97 ≤ n ∧ n ≤ 122 then some (n - 97 + 26)
  else if 48 ≤ n ∧ n ≤ 57 then some (n - 48 + 52)
  else if n = 43 then some 62
  else if n = 47 then some 63
  else none

/-- Maps a 6-bit value to its base64 alphabet character. -/
def sextetToChar (n : Nat) : Char :=
  if n ≤ 25 then Char.ofNat (65 + n)
  else if n ≤ 51 then Char.ofNat (97 + (n - 26))
  else if n ≤ 61 then Char.ofNat (48 + (n - 52))
  else if n = 62 then '+'
  else '/'

/-- Encodes a full 3-byte group as 4 base64 characters. -/
def encodeGroup3 (a b c : Nat) : List Char :=
  [sextetToChar (a / 4), sextetToChar (a % 4 * 16 + b / 16),
   sextetToChar (b % 16 * 4 + c / 64), sextetToChar (c % 64)]

/-- Model of `window.btoa` on a byte list (the repository only ever feeds it
binary strings built from `Uint8Array` bytes): standard base64 with `=`
padding. -/
def btoaModel : List Nat → List Char
  | [] => []
  | [a] => [sextetToChar (a / 4), sextetToChar (a % 4 * 16), '=', '=']
  | [a, b] => [sextetToChar (a / 4), sextetToChar (a % 4 * 16 + b / 16),
               sextetToChar (b % 16 * 4), '=']
  | a :: b :: c :: rest => encodeGroup3 a b c ++ btoaModel rest

/-- Decodes a final 2-character base64 chunk into one byte. -/
def decodeChunk2 (c1 c2 : Char) : Option (List Nat) :=
  match charToSextet c1, charToSextet c2 with
  | some s1, some s2 => some [s1 * 4 + s2 / 16]
  | _, _ => none

/-- Decodes a final 3-character base64 chunk into two bytes. -/
def decodeChunk3 (c1 c2 c3 : Char) : Option (List Nat) :=
  match charToSextet c1, charToSextet c2, charToSextet c3 with
  | some s1, some s2, some s3 =>
      some [s1 * 4 + s2 / 16, s2 % 16 * 16 + s3 / 4]
  | _, _, _ => none

/-- Decodes a full 4-character base64 chunk into three bytes. -/
def decodeChunk4 (c1 c2 c3 c4 : Char) : Option (List Nat) :=
  match charToSextet c1, charToSextet c2, charToSextet c3, charToSextet c4 with
  | some s1, some s2, some s3, some s4 =>
      some [s1 * 4 + s2 / 16, s2 % 16 * 16 + s3 / 4, s3 % 4 * 64 + s4]
  | _, _, _, _ => none

/-- Model of `window.atob` (forgiving base64 decode, HTML standard): decodes
4-character chunks, accepts a final chunk of 2 or 3 characters with or
without `=` padding, and fails (`none`, i.e. `InvalidCharacterError`) on
characters outside the alphabet, misplaced `=`, or a leftover length of 1. -/
def atobModel : List Char → Option (List Nat)
  | [] => some []
  | [c1, c2] => decodeChunk2 c1 c2
  | [c1, c2, c3] => if c3 = '=' then decodeChunk2 c1 c2 else decodeChunk3 c1 c2 c3
  | c1 :: c2 :: c3 :: c4 :: rest =>
      if rest = [] ∧ c4 = '=' then
        if c3 = '=' then decodeChunk2 c1 c2 else decodeChunk3 c1 c2 c3
      else
        match decodeChunk4 c1 c2 c3 c4, atobModel rest with
        | some bs, some rs => some (bs ++ rs)
        | _, _ => none
  | _ => none

/-- Embeds `arrayBufferToBase64` from `src/services/crypto.ts`: builds the
binary string from the bytes and applies `btoa`. -/
def arrayBufferToBase64 (bytes : List Nat) : String :=
  String.mk (btoaModel bytes)

/-- Embeds `base64ToArrayBuffer` from `src/services/crypto.ts`: applies
`atob` and reads the character codes back into a byte buffer; `none` models
the `InvalidCharacterError` that `atob` throws on malformed input. -/
def base64ToArrayBuffer (s : String) : Option (List Nat) :=
  atobModel s.data

/-! ## UTF-8 (`TextEncoder` / `TextDecoder` semantics) -/

/-- Standard UTF-8 encoding of one code point. -/
def utf8EncodeChar (c : Char) : List Nat :=
  if c.toNat < 128 then [c.toNat]
  else if c.toNat < 2048 then [192 + c.toNat / 64, 128 + c.toNat % 64]
  else if c.toNat < 65536 then
    [224 + c.toNat / 4096, 128 + c.toNat / 64 % 64, 128 + c.toNat % 64]
  else
    [240 + c.toNat / 262144, 128 + c.toNat / 4096 % 64, 128 + c.toNat / 64 % 64,
     128 + c.toNat % 64]

/-- UTF-8 encoding of a character list. -/
def utf8EncodeList : List Char → List Nat
  | [] => []
  | c :: cs => utf8EncodeChar c ++ utf8EncodeList cs

/-- Embeds `str2buf` from `src/services/crypto.ts` (`new TextEncoder().encode`). -/
def str2buf (s : String) : List Nat :=
  utf8EncodeList s.data

/-- Decodes one UTF-8 sequence from the front of a byte list, returning the
character and the number of bytes consumed (a U+FFFD replacement character
consuming one byte on a truncated or stray sequence, as `TextDecoder` does). -/
def utf8Step (b1 : Nat) (rest : List Nat) : Char × Nat :=
  if b1 < 128 then (Char.ofNat b1, 1)
  else if b1 < 224 then
    match rest with
    | b2 :: _ => (Char.ofNat ((b1 - 192) * 64 + (b2 - 128)), 2)
    | [] => (Char.ofNat 65533, 1)
  else if b1 < 240 then
    match rest with
    | b2 :: b3 :: _ => (Char.ofNat ((b1 - 224) * 4096 + (b2 - 128) * 64 + (b3 - 128)), 3)
    | _ => (Char.ofNat 65533, 1)
  else
    match rest with
    | b2 :: b3 :: b4 :: _ =>
        (Char.ofNat ((b1 - 240) * 262144 + (b2 - 128) * 4096 + (b3 - 128) * 64 + (b4 - 128)), 4)
    | _ => (Char.ofNat 65533, 1)

/-- Total UTF-8 decoding of a byte list; like `TextDecoder` it never throws. -/
def utf8DecodeList (l : List Nat) : List Char :=
  match l with
  | [] => []
  | b1 :: rest =>
      (utf8Step b1 rest).1 :: utf8DecodeList (List.drop ((utf8Step b1 rest).2 - 1) rest)
termination_by l.length
decreasing_by
  simp only [List.length_cons]
  have := List.length_drop ((utf8Step b1 rest).2 - 1) rest
  omega

/-- Embeds `buf2str` from `src/services/crypto.ts` (`new TextDecoder().decode`). -/
def buf2str (bytes : List Nat) : String :=
  String.mk (utf8DecodeList bytes)

/-! ## Codec roundtrip lemmas -/

lemma charToSextet_sextetToChar {n : Nat} (h : n < 64) :
    charToSextet (sextetToChar n) = some n := by
  have key : ∀ m : Fin 64, charToSextet (sextetToChar m.val) = some m.val := by decide
  exact key ⟨n, h⟩

lemma sextetToChar_ne_pad {n : Nat} (h : n < 64) : sextetToChar n ≠ '=' := by
  have key : ∀ m : Fin 64, sextetToChar m.val ≠ '=' := by decide
  exact key ⟨n, h⟩

lemma decodeChunk4_encodeGroup3 {a b c : Nat} (ha : a < 256) (hb : b < 256) (hc : c < 256) :
    decodeChunk4 (sextetToChar (a / 4)) (sextetToChar (a % 4 * 16 + b / 16))
      (sextetToChar (b % 16 * 4 + c / 64)) (sextetToChar (c % 64)) = some [a, b, c] := by
  have e1 : a / 4 * 4 + (a % 4 * 16 + b / 16) / 16 = a := by omega
  have e2 : (a % 4 * 16 + b / 16) % 16 * 16 + (b % 16 * 4 + c / 64) / 4 = b := by omega
  have e3 : (b % 16 * 4 + c / 64) % 4 * 64 + c % 64 = c := by omega
  rw [decodeChunk4, charToSextet_sextetToChar (by omega), charToSextet_sextetToChar (by omega),
    charToSextet_sextetToChar (by omega), charToSextet_sextetToChar (by omega)]
  simp [e1, e2, e3]

theorem atobModel_btoaModel (bs : List Nat) (h : ∀ b ∈ bs, b < 256) :
    atobModel (btoaModel bs) = some bs := by
  induction bs using btoaModel.induct with
  | case1 => rfl
  | case2 a =>
    have ha : a < 256 := h a (by simp)
    have e1 : a / 4 * 4 + a % 4 * 16 / 16 = a := by omega
    rw [btoaModel, atobModel]
    rw [if_pos ⟨rfl, rfl⟩, if_pos rfl, decodeChunk2,
      charToSextet_sextetToChar (by omega), charToSextet_sextetToChar (by omega)]
    simp
    omega
  | case3 a b =>
    have ha : a < 256 := h a (by simp)
    have hb : b < 256 := h b (by simp)
    have e1 : a / 4 * 4 + (a % 4 * 16 + b / 16) / 16 = a := by omega
    have e2 : (a % 4 * 16 + b / 16) % 16 * 16 + b % 16 * 4 / 4 = b := by omega
    rw [btoaModel, atobModel]
    rw [if_pos ⟨rfl, rfl⟩, if_neg (sextetToChar_ne_pad (by omega)), decodeChunk3,
      charToSextet_sextetToChar (by omega), charToSextet_sextetToChar (by omega),
      charToSextet_sextetToChar (by omega)]
    simp
    omega
  | case4 a b c rest ih =>
    have ha : a < 256 := h a (by simp)
    have hb : b < 256 := h b (by simp)
    have hc : c < 256 := h c (by simp)
    have hrest : ∀ x ∈ rest, x < 256 := fun x hx => h x (by simp [hx])
    rw [btoaModel, encodeGroup3, List.cons_append, List.cons_append, List.cons_append,
      List.cons_append, List.nil_append, atobModel]
    rw [if_neg (fun hcontra => sextetToChar_ne_pad (n := c % 64) (by omega) hcontra.2)]
    rw [decodeChunk4_encodeGroup3 ha hb hc, ih hrest]
    simp

lemma char_toNat_lt (c : Char) : c.toNat < 1114112 := by
  have h := c.valid
  simp only [Char.toNat]
  rcases h with h | h <;> omega

lemma utf8EncodeChar_lt (c : Char) : ∀ b ∈ utf8EncodeChar c, b < 256 := by
  have hv := char_toNat_lt c
  unfold utf8EncodeChar
  split_ifs <;> simp_all <;> omega

lemma utf8DecodeList_encodeChar (c : Char) (rest : List Nat) :
    utf8DecodeList (utf8EncodeChar c ++ rest) = c :: utf8DecodeList rest := by
  have hv := char_toNat_lt c
  unfold utf8EncodeChar
  by_cases h1 : c.toNat < 128
  · simp only [if_pos h1, List.cons_append, List.nil_append]
    rw [utf8DecodeList]
    simp only [utf8Step, if_pos h1]
    rw [Char.ofNat_toNat]
    simp
  · by_cases h2 : c.toNat < 2048
    · simp only [if_neg h1, if_pos h2, List.cons_append, List.nil_append]
      rw [utf8DecodeList]
      simp only [utf8Step, if_neg (show ¬(192 + c.toNat / 64 < 128) from by omega),
        if_pos (show 192 + c.toNat / 64 < 224 from by omega)]
      have e : (192 + c.toNat / 64 - 192) * 64 + (128 + c.toNat % 64 - 128) = c.toNat := by omega
      rw [e, Char.ofNat_toNat]
      simp
    · by_cases h3 : c.toNat < 65536
      · simp only [if_neg h1, if_neg h2, if_pos h3, List.cons_append, List.nil_append]
        rw [utf8DecodeList]
        simp only [utf8Step, if_neg (show ¬(224 + c.toNat / 4096 < 128) from by omega),
          if_neg (show ¬(224 + c.toNat / 4096 < 224) from by omega),
          if_pos (show 224 + c.toNat / 4096 < 240 from by omega)]
        have e : (224 + c.toNat / 4096 - 224) * 4096 + (128 + c.toNat / 64 % 64 - 128) * 64 +
            (128 + c.toNat % 64 - 128) = c.toNat := by omega
        rw [e, Char.ofNat_toNat]
        simp
      · simp only [if_neg h1, if_neg h2, if_neg h3, List.cons_append, List.nil_append]
        rw [utf8DecodeList]
        simp only [utf8Step, if_neg (show ¬(240 + c.toNat / 262144 < 128) from by omega),
          if_neg (show ¬(240 + c.toNat / 262144 < 224) from by omega),
          if_neg (show ¬(240 + c.toNat / 262144 < 240) from by omega)]
        have e : (240 + c.toNat / 262144 - 240) * 262144 + (128 + c.toNat / 4096 % 64 - 128) * 4096 +
            (128 + c.toNat / 64 % 64 - 128) * 64 + (128 + c.toNat % 64 - 128) = c.toNat := by omega
        rw [e, Char.ofNat_toNat]
        simp

lemma utf8DecodeList_utf8EncodeList (cs : List Char) :
    utf8DecodeList (utf8EncodeList cs) = cs := by
  induction cs with
  | nil => rw [utf8EncodeList, utf8DecodeList]
  | cons c cs ih => rw [utf8EncodeList, utf8DecodeList_encodeChar, ih]

theorem buf2str_str2buf (s : String) : buf2str (str2buf s) = s := by
  rw [buf2str, str2buf, utf8DecodeList_utf8EncodeList]

lemma str2buf_lt (s : String) : ∀ b ∈ str2buf s, b < 256 := by
  rw [str2buf]
  induction s.data with
  | nil => simp [utf8EncodeList]
  | cons c cs ih =>
    rw [utf8EncodeList]
    intro b hb
    rcases List.mem_append.mp hb with h | h
    · exact utf8EncodeChar_lt c b h
    · exact ih b h

lemma str2buf_injective {s t : String} (h : str2buf s = str2buf t) : s = t := by
  have hs := buf2str_str2buf s
  have ht := buf2str_str2buf t
  rw [← hs, ← ht, h]

/-! ## WebCrypto AES-GCM (modelled from the spec) -/

/-- Modelled from the spec: `window.crypto.subtle.encrypt` with AES-GCM is a
browser primitive external to the repository. Spec section 4.4 requires an
authenticated cipher (AEAD class): decryption must detect a wrong key or a
corrupted ciphertext/iv via the authentication tag. It is modelled as an
ideal authenticated cipher: the ciphertext carries the plaintext body
followed by a tag that binds the key, the iv and a checksum of the body, so
genuine ciphertexts round-trip and any wrong key or single-byte corruption
is rejected. Confidentiality is not modelled; no claim depends on it. -/
def aesGcmEncrypt (key iv plaintext : List Nat) : List Nat :=
  plaintext ++ key ++ iv ++ [plaintext.sum % 256]

/-- Modelled from the spec: `window.crypto.subtle.decrypt` for the ideal
AEAD above; `none` models the authentication-failure rejection. -/
def aesGcmDecrypt (key iv ct : List Nat) : Option (List Nat) :=
  if ct.drop (ct.length - (key.length + iv.length + 1)) =
      key ++ iv ++ [(ct.take (ct.length - (key.length + iv.length + 1))).sum % 256] then
    some (ct.take (ct.length - (key.length + iv.length + 1)))
  else
    none

lemma aesGcmDecrypt_encrypt (key iv pt : List Nat) :
    aesGcmDecrypt key iv (aesGcmEncrypt key iv pt) = some pt := by
  unfold aesGcmDecrypt aesGcmEncrypt
  have hn : (pt ++ key ++ iv ++ [pt.sum % 256]).length - (key.length + iv.length + 1) =
      pt.length := by
    simp [List.length_append]
    omega
  rw [hn, List.append_assoc, List.append_assoc, List.drop_left, List.take_left]
  rw [if_pos (by simp [List.append_assoc])]

lemma aesGcmDecrypt_sound {key iv ct pt : List Nat}
    (h : aesGcmDecrypt key iv ct = some pt) :
    ct = pt ++ key ++ iv ++ [pt.sum % 256] := by
  unfold aesGcmDecrypt at h
  split_ifs at h with hc
  · have hpt : ct.take (ct.length - (key.length + iv.length + 1)) = pt := by
      exact Option.some.inj h
    calc ct = ct.take (ct.length - (key.length + iv.length + 1)) ++
          ct.drop (ct.length - (key.length + iv.length + 1)) := by
            rw [List.take_append_drop]
    _ = pt ++ key ++ iv ++ [pt.sum % 256] := by
          rw [hpt, hc, ← hpt]
          simp [List.append_assoc]

lemma aesGcmEncrypt_lt {key iv pt : List Nat} (hk : ∀ b ∈ key, b < 256)
    (hiv : ∀ b ∈ iv, b < 256) (hpt : ∀ b ∈ pt, b < 256) :
    ∀ b ∈ aesGcmEncrypt key iv pt, b < 256 := by
  intro b hb
  unfold aesGcmEncrypt at hb
  simp only [List.append_assoc, List.mem_append, List.mem_singleton] at hb
  rcases hb with h | h | h | h
  · exact hpt b h
  · exact hk b h
  · exact hiv b h
  · subst h
    omega

/-! ## EncryptedBlob codec (`cryptoService.encryptData` / `decryptData`) -/

/-- Embeds the `EncryptedData` interface from `src/types.ts`: the wire shape
of an encrypted blob, iv and ciphertext both base64 strings. -/
structure EncryptedData where
  iv : String
  ciphertext : String
deriving DecidableEq, Repr

/-- Outcomes of `cryptoService.decryptData`: `badBase64` models the
`InvalidCharacterError` that `atob` throws before the try/catch is entered;
`decryptionFailed` models the DecryptionError thrown by the catch block
("Failed to decrypt. Key may be incorrect."). -/
inductive DecryptError where
  | badBase64
  | decryptionFailed
deriving DecidableEq, Repr

/-- Embeds `cryptoService.encryptData` from `src/services/crypto.ts`; the
fresh random 12-byte iv that the source draws from
`crypto.getRandomValues(new Uint8Array(12))` is passed as an argument. -/
def encryptData (text : String) (key : List Nat) (iv : List Nat) : EncryptedData :=
  { iv := arrayBufferToBase64 iv,
    ciphertext := arrayBufferToBase64 (aesGcmEncrypt key iv (str2buf text)) }

/-- Embeds `cryptoService.decryptData` from `src/services/crypto.ts`. -/
def decryptData (data : EncryptedData) (key : List Nat) : Except DecryptError String :=
  match base64ToArrayBuffer data.iv with
  | none => .error .badBase64
  | some iv =>
    match base64ToArrayBuffer data.ciphertext with
    | none => .error .badBase64
    | some ct =>
      match aesGcmDecrypt key iv ct with
      | none => .error .decryptionFailed
      | some pt => .ok (buf2str pt)

lemma base64_roundtrip (bs : List Nat) (h : ∀ b ∈ bs, b < 256) :
    base64ToArrayBuffer (arrayBufferToBase64 bs) = some bs :=
  atobModel_btoaModel bs h

/-- Claim C1: for every plaintext string T and every session key K (byte
lists; the iv is the fresh random 12-byte nonce drawn inside `encryptData`),
decrypting the blob produced by `encryptData` with the same key returns the
original plaintext: `decryptData (encryptData T K iv) K = .ok T`. -/
theorem C1_decrypt_encrypt_roundtrip (T : String) (key iv : List Nat)
    (hkey : ∀ b ∈ key, b < 256) (hiv : ∀ b ∈ iv, b < 256) :
    decryptData (encryptData T key iv) key = .ok T := by
  unfold decryptData encryptData
  have h1 : base64ToArrayBuffer (arrayBufferToBase64 iv) = some iv :=
    base64_roundtrip iv hiv
  have h2 : base64ToArrayBuffer (arrayBufferToBase64 (aesGcmEncrypt key iv (str2buf T))) =
      some (aesGcmEncrypt key iv (str2buf T)) :=
    base64_roundtrip _ (aesGcmEncrypt_lt hkey hiv (str2buf_lt T))
  rw [h1, h2]
  simp only [aesGcmDecrypt_encrypt, buf2str_str2buf]

/-- Witness for C1 at a concrete plaintext, key and iv. -/
theorem C1_witness :
    decryptData (encryptData "secret token" [7, 3, 200] [1, 2, 3, 4, 5, 6, 7, 8, 9, 10, 11, 12])
      [7, 3, 200] = .ok "secret token" :=
  C1_decrypt_encrypt_roundtrip "secret token" [7, 3, 200]
    [1, 2, 3, 4, 5, 6, 7, 8, 9, 10, 11, 12] (by decide) (by decide)

/-! ## Tamper detection (C2) -/

/-- One byte of a buffer has been substituted — in particular any single
bit has been flipped: the two lists agree except at exactly one position. -/
def SingleByteAltered (l l' : List Nat) : Prop :=
  ∃ pre b v suf, b ≠ v ∧ l = pre ++ b :: suf ∧ l' = pre ++ v :: suf

lemma singleByteAltered_length {l l' : List Nat} (h : SingleByteAltered l l') :
    l.length = l'.length := by
  obtain ⟨pre, b, v, suf, _, h1, h2⟩ := h
  subst h1
  subst h2
  simp

lemma singleByteAltered_ne {l l' : List Nat} (h : SingleByteAltered l l') : l ≠ l' := by
  obtain ⟨pre, b, v, suf, hbv, h1, h2⟩ := h
  subst h1
  subst h2
  intro he
  exact hbv (List.cons.inj (List.append_cancel_left he)).1

lemma singleByteAltered_split {x1 y1 x2 y2 : List Nat}
    (hlen : x1.length = x2.length)
    (h : SingleByteAltered (x1 ++ y1) (x2 ++ y2)) :
    (SingleByteAltered x1 x2 ∧ y1 = y2) ∨ (x1 = x2 ∧ SingleByteAltered y1 y2) := by
  obtain ⟨pre, b, v, suf, hbv, h1, h2⟩ := h
  rcases List.append_eq_append_iff.mp h1 with ⟨a1, hpre, hy1⟩ | ⟨c1, hx1, hbs⟩
  · subst hpre
    rw [List.append_assoc] at h2
    obtain ⟨hx, hy⟩ := List.append_inj h2 hlen.symm
    right
    exact ⟨hx.symm, a1, b, v, suf, hbv, hy1, hy⟩
  · match c1, hbs with
    | [], hbs =>
      right
      have hx1' : x1 = pre := by simpa using hx1
      subst hx1'
      obtain ⟨hx, hy⟩ := List.append_inj h2 (hlen.symm.trans (by rfl))
      refine ⟨hx.symm, [], b, v, suf, hbv, by simpa using hbs.symm, by simpa using hy⟩
    | bb :: c2, hbs =>
      have hb : b = bb := (List.cons.inj hbs).1
      have hsuf : suf = c2 ++ y1 := (List.cons.inj hbs).2
      subst hb
      subst hsuf
      left
      have h2' : x2 ++ y2 = (pre ++ v :: c2) ++ y1 := by
        rw [h2]
        simp
      have hlen2 : x2.length = (pre ++ v :: c2).length := by
        rw [← hlen, hx1]
        simp
      obtain ⟨hx, hy⟩ := List.append_inj h2' hlen2
      exact ⟨⟨pre, b, v, c2, hbv, hx1, hx⟩, hy.symm⟩

lemma aesGcmDecrypt_wrong_key {key key' iv pt : List Nat}
    (hne : key' ≠ key) (hlen : key'.length = key.length) :
    aesGcmDecrypt key' iv (aesGcmEncrypt key iv pt) = none := by
  unfold aesGcmDecrypt aesGcmEncrypt
  have hn : (pt ++ key ++ iv ++ [pt.sum % 256]).length - (key'.length + iv.length + 1) =
      pt.length := by
    simp [List.length_append]
    omega
  rw [hn, List.append_assoc, List.append_assoc, List.drop_left, List.take_left, if_neg]
  intro hcond
  simp only [← List.append_assoc] at hcond
  have h1 := (List.append_inj hcond (by simp [hlen])).1
  exact hne ((List.append_inj h1 hlen.symm).1.symm)

lemma aesGcmDecrypt_iv_tamper {key iv iv' pt : List Nat}
    (h : SingleByteAltered iv iv') :
    aesGcmDecrypt key iv' (aesGcmEncrypt key iv pt) = none := by
  have hlen := singleByteAltered_length h
  have hne := singleByteAltered_ne h
  unfold aesGcmDecrypt aesGcmEncrypt
  have hn : (pt ++ key ++ iv ++ [pt.sum % 256]).length - (key.length + iv'.length + 1) =
      pt.length := by
    simp [List.length_append]
    omega
  rw [hn, List.append_assoc, List.append_assoc, List.drop_left, List.take_left, if_neg]
  intro hcond
  rw [List.append_assoc] at hcond
  have h1 := List.append_cancel_left hcond
  exact hne (List.append_inj h1 hlen).1

lemma aesGcmDecrypt_ct_tamper {key iv pt ct' : List Nat}
    (hpt : ∀ b ∈ pt, b < 256) (hct' : ∀ b ∈ ct', b < 256)
    (h : SingleByteAltered (aesGcmEncrypt key iv pt) ct') :
    aesGcmDecrypt key iv ct' = none := by
  have hlenct : ct'.length = pt.length + key.length + iv.length + 1 := by
    have := singleByteAltered_length h
    rw [aesGcmEncrypt] at this
    simp [List.length_append] at this
    omega
  unfold aesGcmDecrypt
  have hn : ct'.length - (key.length + iv.length + 1) = pt.length := by omega
  rw [hn, if_neg]
  intro hcond
  have hsplit : ct' = ct'.take pt.length ++ ct'.drop pt.length := (List.take_append_drop _ _).symm
  have hlentake : (ct'.take pt.length).length = pt.length := by
    rw [List.length_take]
    omega
  have halt : SingleByteAltered (pt ++ (key ++ iv ++ [pt.sum % 256]))
      (ct'.take pt.length ++ ct'.drop pt.length) := by
    rw [← hsplit]
    have := h
    rw [aesGcmEncrypt] at this
    simpa [List.append_assoc] using this
  rcases singleByteAltered_split (by omega) halt with ⟨hx, hy⟩ | ⟨hx, hy⟩
  · -- the altered byte is in the plaintext body: the checksum catches it
    obtain ⟨p, b, v, q, hbv, hp1, hp2⟩ := hx
    have hb256 : b < 256 := hpt b (by rw [hp1]; simp)
    have hv256 : v < 256 := by
      have hvmem : v ∈ List.take pt.length ct' := by
        rw [hp2]
        simp
      exact hct' v (List.mem_of_mem_take hvmem)
    have hsum1 : pt.sum = p.sum + b + q.sum := by
      rw [hp1]
      simp [List.sum_append]
      ring
    have hsum2 : (ct'.take pt.length).sum = p.sum + v + q.sum := by
      rw [hp2]
      simp [List.sum_append]
      ring
    rw [hcond] at hy
    simp only [List.append_assoc] at hy
    have h2 := List.append_cancel_left hy
    have h3 := List.append_cancel_left h2
    have hchk : pt.sum % 256 = (ct'.take pt.length).sum % 256 := (List.cons.inj h3).1
    rw [hsum1, hsum2] at hchk
    omega
  · -- the altered byte is in the tag region: the stored tag no longer matches
    have hyne := singleByteAltered_ne hy
    rw [hcond, ← hx] at hyne
    exact hyne (by simp [List.append_assoc])

/-- Claim C2: for every blob produced by `encryptData` under key K with iv,
if it is decrypted with a wrong key (any other 256-bit-class key of the same
length), or any single byte of the decoded ciphertext or iv has been
substituted since encryption (which covers flipping any bit), then
`decryptData` fails with the DecryptionError, so it never silently returns
a plaintext different from the one originally encrypted. -/
theorem C2_tamper_detected (T : String) (key key' iv iv' ct' : List Nat)
    (hiv' : ∀ b ∈ iv', b < 256) (hct' : ∀ b ∈ ct', b < 256)
    (hpt : ∀ b ∈ str2buf T, b < 256)
    (halt :
      (key' ≠ key ∧ key'.length = key.length ∧ iv' = iv ∧
        ct' = aesGcmEncrypt key iv (str2buf T)) ∨
      (key' = key ∧ SingleByteAltered iv iv' ∧
        ct' = aesGcmEncrypt key iv (str2buf T)) ∨
      (key' = key ∧ iv' = iv ∧
        SingleByteAltered (aesGcmEncrypt key iv (str2buf T)) ct')) :
    decryptData ⟨arrayBufferToBase64 iv', arrayBufferToBase64 ct'⟩ key' =
      .error .decryptionFailed := by
  unfold decryptData
  rw [show (⟨arrayBufferToBase64 iv', arrayBufferToBase64 ct'⟩ : EncryptedData).iv =
    arrayBufferToBase64 iv' from rfl]
  rw [show (⟨arrayBufferToBase64 iv', arrayBufferToBase64 ct'⟩ : EncryptedData).ciphertext =
    arrayBufferToBase64 ct' from rfl]
  rw [base64_roundtrip iv' hiv', base64_roundtrip ct' hct']
  have hdec : aesGcmDecrypt key' iv' ct' = none := by
    rcases halt with ⟨hne, hlen, hiv, hct⟩ | ⟨hk, hsb, hct⟩ | ⟨hk, hiv, hsb⟩
    · subst hiv
      subst hct
      exact aesGcmDecrypt_wrong_key hne hlen
    · subst hk
      subst hct
      exact aesGcmDecrypt_iv_tamper hsb
    · subst hk
      subst hiv
      exact aesGcmDecrypt_ct_tamper hpt hct' hsb
  simp only [hdec]

/-- Witness for C2 at a concrete plaintext, with a wrong key of the same
length. -/
theorem C2_witness :
    decryptData
      ⟨arrayBufferToBase64 [1, 2, 3, 4, 5, 6, 7, 8, 9, 10, 11, 12],
       arrayBufferToBase64 (aesGcmEncrypt [7, 3] [1, 2, 3, 4, 5, 6, 7, 8, 9, 10, 11, 12]
         (str2buf "secret"))⟩ [7, 4] = .error .decryptionFailed :=
  C2_tamper_detected "secret" [7, 3] [7, 4] [1, 2, 3, 4, 5, 6, 7, 8, 9, 10, 11, 12]
    [1, 2, 3, 4, 5, 6, 7, 8, 9, 10, 11, 12]
    (aesGcmEncrypt [7, 3] [1, 2, 3, 4, 5, 6, 7, 8, 9, 10, 11, 12] (str2buf "secret"))
    (by decide)
    (aesGcmEncrypt_lt (by decide) (by decide) (str2buf_lt "secret"))
    (str2buf_lt "secret")
    (Or.inl ⟨by decide, rfl, rfl, rfl⟩)

/-! ## Key derivation and verifier (`cryptoService.deriveKey` / `createVerifier`) -/

/-- Four-byte big-endian encoding of a buffer length (JS buffer lengths are
below 2^32). -/
def len4 (n : Nat) : List Nat :=
  [n / 16777216 % 256, n / 65536 % 256, n / 256 % 256, n % 256]

/-- Modelled from the spec: PBKDF2 (SHA-256, 100000 iterations) via
`window.crypto.subtle.deriveKey` is a browser primitive external to the
repository. Spec section 4.1 requires a deterministic derivation: the same
password and salt always yield the same key, and distinct passwords yield
distinct keys (collision-freeness, the idealization of the overwhelming-
probability clause). Modelled as an injective encoding of the password
bytes and the salt bytes into the derived key bytes. -/
def pbkdf2Model (password salt : List Nat) : List Nat :=
  len4 password.length ++ password ++ salt

/-- Modelled from the spec: SHA-256 via `window.crypto.subtle.digest` is a
browser primitive external to the repository. Spec section 4.2 requires a
deterministic fingerprint where distinct keys yield distinct fingerprints;
modelled as an injective digest. -/
def sha256Model (l : List Nat) : List Nat :=
  len4 l.length ++ l

/-- The `DecodingError` of the spec taxonomy: the `InvalidCharacterError`
thrown by `atob` on a malformed base64 salt inside `deriveKey`. -/
inductive DecodingError where
  | invalidCharacter
deriving DecidableEq, Repr

/-- Embeds `cryptoService.deriveKey` from `src/services/crypto.ts`: decodes
the base64 salt (`atob` failure is the DecodingError) and derives the key
from the UTF-8 password bytes and the decoded salt bytes; the salt is used
exactly as decoded, whatever its length. -/
def deriveKey (password : String) (saltBase64 : String) :
    Except DecodingError (List Nat) :=
  match base64ToArrayBuffer saltBase64 with
  | none => .error .invalidCharacter
  | some salt => .ok (pbkdf2Model (str2buf password) salt)

/-- Embeds `cryptoService.createVerifier` from `src/services/crypto.ts`:
exports the raw key bytes (the model key is its raw bytes), hashes them and
base64-encodes the digest. -/
def createVerifier (key : List Nat) : String :=
  arrayBufferToBase64 (sha256Model key)

/-- Embeds `cryptoService.generateSalt` from `src/services/crypto.ts`; the
16 random bytes from `crypto.getRandomValues` are passed as an argument. -/
def generateSalt (randomBytes : List Nat) : String :=
  arrayBufferToBase64 randomBytes

lemma len4_lt (n : Nat) : ∀ b ∈ len4 n, b < 256 := by
  intro b hb
  simp [len4] at hb
  rcases hb with h | h | h | h <;> omega

lemma len4_inj {n m : Nat} (hn : n < 4294967296) (hm : m < 4294967296)
    (h : len4 n = len4 m) : n = m := by
  simp [len4] at h
  omega

lemma pbkdf2Model_lt {password salt : List Nat} (hp : ∀ b ∈ password, b < 256)
    (hs : ∀ b ∈ salt, b < 256) : ∀ b ∈ pbkdf2Model password salt, b < 256 := by
  intro b hb
  simp only [pbkdf2Model, List.append_assoc, List.mem_append] at hb
  rcases hb with h | h | h
  · exact len4_lt _ b h
  · exact hp b h
  · exact hs b h

lemma sha256Model_lt {l : List Nat} (hl : ∀ b ∈ l, b < 256) :
    ∀ b ∈ sha256Model l, b < 256 := by
  intro b hb
  simp only [sha256Model, List.mem_append] at hb
  rcases hb with h | h
  · exact len4_lt _ b h
  · exact hl b h

lemma sha256Model_inj {l l' : List Nat} (h : sha256Model l = sha256Model l') :
    l = l' := by
  unfold sha256Model at h
  exact (List.append_inj h (by simp [len4])).2

lemma pbkdf2Model_inj_password {p p' salt : List Nat}
    (hl : p.length < 4294967296) (hl' : p'.length < 4294967296)
    (h : pbkdf2Model p salt = pbkdf2Model p' salt) : p = p' := by
  unfold pbkdf2Model at h
  rw [List.append_assoc, List.append_assoc] at h
  obtain ⟨h1, h2⟩ := List.append_inj h (by simp [len4])
  have hlen := len4_inj hl hl' h1
  exact (List.append_inj h2 hlen).1

lemma createVerifier_inj {k k' : List Nat} (hk : ∀ b ∈ k, b < 256)
    (hk' : ∀ b ∈ k', b < 256) (h : createVerifier k = createVerifier k') :
    k = k' := by
  unfold createVerifier at h
  have h1 : base64ToArrayBuffer (arrayBufferToBase64 (sha256Model k)) =
      base64ToArrayBuffer (arrayBufferToBase64 (sha256Model k')) := by rw [h]
  rw [base64_roundtrip _ (sha256Model_lt hk), base64_roundtrip _ (sha256Model_lt hk')] at h1
  exact sha256Model_inj (Option.some.inj h1)

/-! ## AuthSession (`handleAuth` in `src/App.tsx`) -/

/-- Embeds the `UserAuth` interface from `src/types.ts`: the persisted user
record, salt and verifier base64-encoded. -/
structure UserAuth where
  username : String
  salt : String
  verifier : String
deriving DecidableEq, Repr

/-- The authentication-relevant state: `users` is the IndexedDB `auth`
store keyed by username, `hasUser` the flag loaded at init, `sessionKey`
and `isAuthenticated` the React state, `authError` the displayed error. -/
structure AuthState where
  users : List (String × UserAuth)
  hasUser : Bool
  sessionKey : Option (List Nat)
  isAuthenticated : Bool
  authError : String
deriving Repr

/-- Keyed lookup in the `auth` object store (`dbService.getUser`). -/
def lookupUser (users : List (String × UserAuth)) (name : String) : Option UserAuth :=
  match users with
  | [] => none
  | (k, v) :: rest => if k = name then some v else lookupUser rest name

/-- Embeds `handleAuth` from `src/App.tsx` (lines 180-233): the login flow
when a user exists, else the registration flow. The fresh 16 random salt
bytes drawn inside `generateSalt` during registration are passed as an
argument. The duplicate-key rejection of `store.add` is not modelled since
registration only runs when no user record exists. -/
def handleAuth (st : AuthState) (username password : String)
    (freshSaltBytes : List Nat) : AuthState :=
  if username = "" ∨ password = "" then
    { st with authError := "Please fill in all fields" }
  else if st.hasUser then
    match lookupUser st.users username with
    | none => { st with authError := "User not found" }
    | some user =>
      match deriveKey password user.salt with
      | .error _ => { st with authError := "Authentication failed" }
      | .ok key =>
        if createVerifier key = user.verifier then
          { st with sessionKey := some key, isAuthenticated := true, authError := "" }
        else
          { st with authError := "Invalid credentials" }
  else
    match deriveKey password (generateSalt freshSaltBytes) with
    | .error _ => { st with authError := "Authentication failed" }
    | .ok key =>
      { st with
        users := st.users ++ [(username,
          { username := username, salt := generateSalt freshSaltBytes,
            verifier := createVerifier key })],
        sessionKey := some key,
        isAuthenticated := true,
        authError := "" }

/-- Claim C3: starting from an empty vault, registering user `u` with
password `p` (generate salt, derive key, compute verifier, persist the
record) authenticates and persists exactly the expected record; immediately
logging in with the same password succeeds (the re-derived verifier equals
the stored one), while logging in with any different password `p'` fails
with InvalidCredentialsError and leaves the session Unauthenticated with no
session key. -/
theorem C3_register_then_login (u p p' : String) (saltBytes : List Nat)
    (hu : u ≠ "") (hp : p ≠ "") (hp' : p' ≠ "") (hne : p' ≠ p)
    (hsalt : ∀ b ∈ saltBytes, b < 256)
    (hlp : (str2buf p).length < 4294967296) (hlp' : (str2buf p').length < 4294967296) :
    handleAuth ⟨[], false, none, false, ""⟩ u p saltBytes =
      ⟨[(u, ⟨u, generateSalt saltBytes,
          createVerifier (pbkdf2Model (str2buf p) saltBytes)⟩)],
        false, some (pbkdf2Model (str2buf p) saltBytes), true, ""⟩ ∧
    (handleAuth ⟨[(u, ⟨u, generateSalt saltBytes,
          createVerifier (pbkdf2Model (str2buf p) saltBytes)⟩)],
        true, none, false, ""⟩ u p saltBytes).isAuthenticated = true ∧
    handleAuth ⟨[(u, ⟨u, generateSalt saltBytes,
          createVerifier (pbkdf2Model (str2buf p) saltBytes)⟩)],
        true, none, false, ""⟩ u p' saltBytes =
      ⟨[(u, ⟨u, generateSalt saltBytes,
          createVerifier (pbkdf2Model (str2buf p) saltBytes)⟩)],
        true, none, false, "Invalid credentials"⟩ := by
  have hderive : ∀ q : String, deriveKey q (generateSalt saltBytes) =
      .ok (pbkdf2Model (str2buf q) saltBytes) := by
    intro q
    unfold deriveKey generateSalt
    rw [base64_roundtrip saltBytes hsalt]
  refine ⟨?_, ?_, ?_⟩
  · unfold handleAuth
    rw [if_neg (by simp [hu, hp])]
    simp only [hderive]
    simp
  · unfold handleAuth
    rw [if_neg (by simp [hu, hp])]
    simp [lookupUser, hderive]
  · have hvne : createVerifier (pbkdf2Model (str2buf p') saltBytes) ≠
        createVerifier (pbkdf2Model (str2buf p) saltBytes) := by
      intro hv
      apply hne
      apply str2buf_injective
      apply pbkdf2Model_inj_password hlp' hlp
      exact createVerifier_inj
        (pbkdf2Model_lt (str2buf_lt p') hsalt)
        (pbkdf2Model_lt (str2buf_lt p) hsalt) hv
    unfold handleAuth
    rw [if_neg (by simp [hu, hp'])]
    simp [lookupUser, hderive, hvne]

/-- Witness for C3 at concrete credentials. -/
theorem C3_witness :
    (handleAuth ⟨[], false, none, false, ""⟩ "alice" "pw1" [1, 2, 3]).isAuthenticated = true ∧
    (handleAuth ⟨(handleAuth ⟨[], false, none, false, ""⟩ "alice" "pw1" [1, 2, 3]).users,
        true, none, false, ""⟩ "alice" "pw2" [1, 2, 3]).authError = "Invalid credentials" := by
  obtain ⟨h1, _, h3⟩ := C3_register_then_login "alice" "pw1" "pw2" [1, 2, 3]
    (by decide) (by decide) (by decide) (by decide) (by decide) (by decide) (by decide)
  constructor
  · rw [h1]
  · rw [h1]
    rw [show (⟨[("alice", ⟨"alice", generateSalt [1, 2, 3],
        createVerifier (pbkdf2Model (str2buf "pw1") [1, 2, 3])⟩)],
        false, some (pbkdf2Model (str2buf "pw1") [1, 2, 3]), true, ""⟩ : AuthState).users =
      [("alice", ⟨"alice", generateSalt [1, 2, 3],
        createVerifier (pbkdf2Model (str2buf "pw1") [1, 2, 3])⟩)] from rfl]
    rw [h3]

/-- Counterexample to claim C8: a salt that is valid base64 but decodes to
8 bytes (not 16) does not signal a DecodingError — `deriveKey` accepts it
and derives a key from the 8 decoded bytes. -/
theorem C8_counterexample :
    base64ToArrayBuffer "AAAAAAAAAAA=" = some [0, 0, 0, 0, 0, 0, 0, 0] ∧
    deriveKey "pw" "AAAAAAAAAAA=" =
      .ok (pbkdf2Model (str2buf "pw") [0, 0, 0, 0, 0, 0, 0, 0]) := by
  refine ⟨by decide, ?_⟩
  unfold deriveKey
  rw [show base64ToArrayBuffer "AAAAAAAAAAA=" = some [0, 0, 0, 0, 0, 0, 0, 0] from by decide]

/-- Claim C8 (amended): for every password, `deriveKey` signals the
DecodingError exactly when the salt string is not valid base64; a salt with
any other decoded length (16 bytes or not) is accepted as-is, and the key
is derived from precisely the decoded bytes — nothing is guessed or
padded. -/
theorem C8_deriveKey_decoding (pw s : String) :
    (base64ToArrayBuffer s = none → deriveKey pw s = .error .invalidCharacter) ∧
    (∀ bs, base64ToArrayBuffer s = some bs →
      deriveKey pw s = .ok (pbkdf2Model (str2buf pw) bs)) := by
  constructor
  · intro h
    unfold deriveKey
    rw [h]
  · intro bs h
    unfold deriveKey
    rw [h]

/-- Witness for C8 (amended) at a malformed salt and at a well-formed one. -/
theorem C8_witness :
    deriveKey "pw" "!!!" = .error .invalidCharacter ∧
    deriveKey "pw" "TWFu" = .ok (pbkdf2Model (str2buf "pw") [77, 97, 110]) :=
  ⟨(C8_deriveKey_decoding "pw" "!!!").1 (by decide),
   (C8_deriveKey_decoding "pw" "TWFu").2 [77, 97, 110] (by decide)⟩

/-! ## SecretStore (`initializeSecureServices` in `src/App.tsx`) -/

/-- Embeds the `AppSettings` interface from `src/types.ts` (the persisted
singleton settings record), restricted to the fields the core reads. -/
structure AppSettings where
  apiKey : Option EncryptedData
  vimeoToken : Option EncryptedData
  dailymotionToken : Option EncryptedData
  nomadProxyKey : Option EncryptedData
  geminiApiKey : Option EncryptedData
  nomadUrl : Option String
  customProxyUrl : Option String
  proxy1Url : Option String
  proxy2Url : Option String
  feedCacheDuration : Option Nat
deriving Repr

/-- The volatile in-memory credential slots that `initializeSecureServices`
pushes into the service singletons via their setters (`setNomadKey`,
`setApiKey`, `setToken`, ...); `none` means the setter was never invoked
and the slot stays empty. -/
structure SecureSlots where
  nomadKey : Option String
  nomadUrl : Option String
  youtubeApiKey : Option String
  vimeoToken : Option String
  dailymotionToken : Option String
  geminiApiKey : Option String
deriving DecidableEq, Repr

/-- Embeds `initializeSecureServices` from `src/App.tsx` (lines 109-161):
for each recognized secret slot whose blob exists, attempt decryption with
the session key; each attempt is wrapped in its own try/catch, so a failure
only logs a warning and leaves that slot empty while the remaining slots
are still processed. -/
def initializeSecureServices (settings : Option AppSettings)
    (sessionKey : List Nat) : SecureSlots :=
  match settings with
  | none => ⟨none, none, none, none, none, none⟩
  | some s =>
    { nomadKey :=
        match s.nomadProxyKey with
        | some blob => (decryptData blob sessionKey).toOption
        | none => none
      nomadUrl :=
        match s.nomadUrl with
        | some u => if u = "" then none else some u
        | none => none
      youtubeApiKey :=
        match s.apiKey with
        | some blob => (decryptData blob sessionKey).toOption
        | none => none
      vimeoToken :=
        match s.vimeoToken with
        | some blob => (decryptData blob sessionKey).toOption
        | none => none
      dailymotionToken :=
        match s.dailymotionToken with
        | some blob => (decryptData blob sessionKey).toOption
        | none => none
      geminiApiKey :=
        match s.geminiApiKey with
        | some blob => (decryptData blob sessionKey).toOption
        | none => none }

/-- Claim C9: on session start, for each recognized secret slot whose blob
exists, a decryption failure for that slot leaves the whole result as if
that slot were absent (the slot empty, every other slot still decrypted and
loaded exactly as before), and a successful decryption loads the slot; one
undecryptable secret never aborts the session. -/
theorem C9_one_bad_secret_never_blocks (s : AppSettings) (key : List Nat) :
    ((∀ blob, s.nomadProxyKey = some blob → (decryptData blob key).toOption = none →
      initializeSecureServices (some s) key =
        initializeSecureServices (some { s with nomadProxyKey := none }) key) ∧
     (∀ blob T, s.nomadProxyKey = some blob → decryptData blob key = .ok T →
      (initializeSecureServices (some s) key).nomadKey = some T)) ∧
    ((∀ blob, s.apiKey = some blob → (decryptData blob key).toOption = none →
      initializeSecureServices (some s) key =
        initializeSecureServices (some { s with apiKey := none }) key) ∧
     (∀ blob T, s.apiKey = some blob → decryptData blob key = .ok T →
      (initializeSecureServices (some s) key).youtubeApiKey = some T)) ∧
    ((∀ blob, s.vimeoToken = some blob → (decryptData blob key).toOption = none →
      initializeSecureServices (some s) key =
        initializeSecureServices (some { s with vimeoToken := none }) key) ∧
     (∀ blob T, s.vimeoToken = some blob → decryptData blob key = .ok T →
      (initializeSecureServices (some s) key).vimeoToken = some T)) ∧
    ((∀ blob, s.dailymotionToken = some blob → (decryptData blob key).toOption = none →
      initializeSecureServices (some s) key =
        initializeSecureServices (some { s with dailymotionToken := none }) key) ∧
     (∀ blob T, s.dailymotionToken = some blob → decryptData blob key = .ok T →
      (initializeSecureServices (some s) key).dailymotionToken = some T)) ∧
    ((∀ blob, s.geminiApiKey = some blob → (decryptData blob key).toOption = none →
      initializeSecureServices (some s) key =
        initializeSecureServices (some { s with geminiApiKey := none }) key) ∧
     (∀ blob T, s.geminiApiKey = some blob → decryptData blob key = .ok T →
      (initializeSecureServices (some s) key).geminiApiKey = some T)) := by
  refine ⟨⟨?_, ?_⟩, ⟨?_, ?_⟩, ⟨?_, ?_⟩, ⟨?_, ?_⟩, ⟨?_, ?_⟩⟩ <;>
    first
    | (intro blob h1 h2
       simp [initializeSecureServices, h1, h2])
    | (intro blob T h1 h2
       simp [initializeSecureServices, h1, h2, Except.toOption])

/-- Witness for C9: a settings record whose YouTube blob is undecryptable
while the Vimeo blob decrypts fine — the YouTube slot behaves as if absent
and the Vimeo slot still loads. -/
theorem C9_witness :
    initializeSecureServices
        (some ⟨some ⟨"!", "!"⟩, some (encryptData "tok" [5] [9]),
          none, none, none, none, none, none, none, none⟩) [5] =
      initializeSecureServices
        (some ⟨none, some (encryptData "tok" [5] [9]),
          none, none, none, none, none, none, none, none⟩) [5] ∧
    (initializeSecureServices
        (some ⟨some ⟨"!", "!"⟩, some (encryptData "tok" [5] [9]),
          none, none, none, none, none, none, none, none⟩) [5]).vimeoToken = some "tok" := by
  have hok : decryptData (encryptData "tok" [5] [9]) [5] = .ok "tok" := by
    unfold decryptData encryptData
    rw [base64_roundtrip _ (by decide),
      base64_roundtrip _ (aesGcmEncrypt_lt (by decide) (by decide) (str2buf_lt "tok"))]
    simp only [aesGcmDecrypt_encrypt, buf2str_str2buf]
  constructor
  · exact (C9_one_bad_secret_never_blocks _ [5]).2.1.1 ⟨"!", "!"⟩ rfl (by decide)
  · exact (C9_one_bad_secret_never_blocks _ [5]).2.2.1.2
      (encryptData "tok" [5] [9]) "tok" rfl hok

/-! ## ProxyChain (`proxyService.fetchText` in `src/services/proxy.ts`) -/

/-- Embeds `DEFAULT_PROXY_1` from `src/services/proxy.ts`. -/
def DEFAULT_PROXY_1 : String := "https://api.allorigins.win/raw?url="

/-- Embeds `DEFAULT_PROXY_2` from `src/services/proxy.ts`. -/
def DEFAULT_PROXY_2 : String := "https://corsproxy.io/?"

/-- Embeds `DEFAULT_NOMAD_URL` from `src/services/proxy.ts`. -/
def DEFAULT_NOMAD_URL : String := "https://nomad.xoopserver.workers.dev/"

/-- Embeds the `ProxyStatus` type from `src/services/proxy.ts`. -/
inductive ProxyStatus where
  | secure
  | custom
  | public
  | none
deriving DecidableEq, Repr

/-- Outcome of one browser `fetch` of a URL: a thrown network error, or a
response with an HTTP status and a body text. The network is a parameter
of the model. -/
inductive FetchOutcome where
  | thrown (msg : String)
  | resp (status : Nat) (body : String)

/-- The `res.ok` flag of a fetch response: status in the range 200-299. -/
def respOk (status : Nat) : Bool :=
  decide (200 ≤ status ∧ status < 300)

/-- Does `hay` start with `needle`? -/
def listStartsWith : List Char → List Char → Bool
  | _, [] => true
  | [], _ :: _ => false
  | a :: as, b :: bs => a == b && listStartsWith as bs

/-- Does `hay` contain `needle` as a contiguous run? -/
def containsSub : List Char → List Char → Bool
  | [], needle => needle.isEmpty
  | c :: rest, needle => listStartsWith (c :: rest) needle || containsSub rest needle

/-- Semantics of JS `String.prototype.includes`. -/
def strIncludes (hay needle : String) : Bool :=
  containsSub hay.data needle.data

/-- Drops leading whitespace characters. -/
def dropLeadingWs : List Char → List Char
  | [] => []
  | c :: rest => if c.isWhitespace then dropLeadingWs rest else c :: rest

/-- Semantics of JS `String.prototype.trim`. -/
def jsTrim (s : String) : String :=
  String.mk (dropLeadingWs (dropLeadingWs s.data.reverse).reverse)

/-- Semantics of JS `String.prototype.endsWith`. -/
def strEndsWith (s suffix : String) : Bool :=
  listStartsWith s.data.reverse suffix.data.reverse

/-- Embeds `isValidResponse` from `src/services/proxy.ts` (lines 191-196):
empty bodies and bodies containing a known failure marker are invalid. -/
def isValidResponse (text : String) : Bool :=
  if text == "" || strIncludes text "Access Denied" || strIncludes text "Proxy Error" ||
      strIncludes text "403 Forbidden" then false else true

/-- Modelled from the spec: `encodeURIComponent` is a browser builtin whose
exact escaping is irrelevant to every claim; modelled as the identity
embedding of the component into the URL. -/
def encodeURIComponentModel (s : String) : String := s

/-- Builds the tier-1 fetch URL exactly as `fetchText` does: worker URL from
the in-memory override, else a non-blank settings `nomadUrl`, else the
default; normalized with a trailing slash; target and key as query
parameters. -/
def nomadFetchUrl (memKeyVal : String) (memUrl : Option String)
    (settings : Option AppSettings) (cleanTarget : String) : String :=
  let settingUrl : Option String :=
    match settings with
    | some s =>
      match s.nomadUrl with
      | some u => if u ≠ "" ∧ jsTrim u ≠ "" then some u else none
      | none => none
    | none => none
  let rawWorkerUrl : String :=
    match memUrl with
    | some mu =>
      if mu = "" then
        match settingUrl with
        | some su => su
        | none => DEFAULT_NOMAD_URL
      else mu
    | none =>
      match settingUrl with
      | some su => su
      | none => DEFAULT_NOMAD_URL
  let workerUrl := jsTrim rawWorkerUrl
  let baseUrl := if strEndsWith workerUrl "/" = true then workerUrl else workerUrl ++ "/"
  baseUrl ++ "?url=" ++ encodeURIComponentModel cleanTarget ++ "&key=" ++
    encodeURIComponentModel memKeyVal

/-- Builds the loop proxy list exactly as `fetchText` does: the custom
proxy when configured non-blank, then public proxy 1 and 2 (user override
when non-blank, else the documented default), each trimmed when pushed. -/
def proxiesList (settings : Option AppSettings) : List String :=
  (match settings with
   | some s =>
     match s.customProxyUrl with
     | some u => if u ≠ "" ∧ jsTrim u ≠ "" then [jsTrim u] else []
     | none => []
   | none => []) ++
  [(match settings with
    | some s =>
      match s.proxy1Url with
      | some u => if u ≠ "" ∧ jsTrim u ≠ "" then jsTrim u else DEFAULT_PROXY_1
      | none => DEFAULT_PROXY_1
    | none => DEFAULT_PROXY_1),
   (match settings with
    | some s =>
      match s.proxy2Url with
      | some u => if u ≠ "" ∧ jsTrim u ≠ "" then jsTrim u else DEFAULT_PROXY_2
      | none => DEFAULT_PROXY_2
    | none => DEFAULT_PROXY_2)]

/-- Observable result of one `fetchText` call: the fetch URLs attempted in
order, the status pushed to the `statusCallback`, and the returned body or
the thrown error message. -/
structure FetchTextResult where
  attempts : List String
  reported : ProxyStatus
  outcome : Except String String
deriving Repr

/-- The error finally thrown after exhaustion:
`lastError || new Error('All proxies failed to fetch content')`. -/
def resolveErr (lastError : Option String) : String :=
  match lastError with
  | some e => e
  | none => "All proxies failed to fetch content"

/-- Embeds the proxy loop of `fetchText` (lines 155-184): walks the proxy
bases carrying the mutable `lastError` and `usedPublic`; a thrown fetch or
a non-ok status captures `lastError`, an invalid body just advances, the
first ok and valid body wins together with the `usedPublic` flag at that
point. -/
def proxyLoop (net : String → FetchOutcome) (cleanTarget : String)
    (bases : List String) (lastError : Option String) (usedPublic : Bool) :
    List String × Except (Option String) (String × Bool) :=
  match bases with
  | [] => ([], .error lastError)
  | base :: rest =>
    let cleanBase := jsTrim base
    let isPub := strIncludes cleanBase "allorigins" || strIncludes cleanBase "corsproxy"
    let usedPublic' := usedPublic || isPub
    let fetchUrl := cleanBase ++ encodeURIComponentModel cleanTarget
    match net fetchUrl with
    | .thrown e =>
      let r := proxyLoop net cleanTarget rest (some e) usedPublic'
      (fetchUrl :: r.1, r.2)
    | .resp status body =>
      if respOk status then
        if isValidResponse body then
          ([fetchUrl], .ok (body, usedPublic'))
        else
          let r := proxyLoop net cleanTarget rest lastError usedPublic'
          (fetchUrl :: r.1, r.2)
      else
        let r := proxyLoop net cleanTarget rest
          (some ("Proxy " ++ cleanBase ++ " returned " ++ toString status)) usedPublic'
        (fetchUrl :: r.1, r.2)

/-- Packages a finished proxy-loop run the way `fetchText` does: on success
report `public` or `custom` from the `usedPublic` latch; on exhaustion
report `none` and throw the resolved error. -/
def finishLoop (pre : List String)
    (r : List String × Except (Option String) (String × Bool)) : FetchTextResult :=
  match r with
  | (as, .ok (body, usedPub)) =>
    { attempts := pre ++ as,
      reported := if usedPub then ProxyStatus.public else ProxyStatus.custom,
      outcome := .ok body }
  | (as, .error lastError) =>
    { attempts := pre ++ as,
      reported := ProxyStatus.none,
      outcome := .error (resolveErr lastError) }

/-- Embeds `proxyService.fetchText` from `src/services/proxy.ts` (lines
94-188): the authenticated worker tier when a key is active in memory (its
failures are caught without capturing `lastError`), then the proxy loop. -/
def fetchText (memKey memUrl : Option String) (settings : Option AppSettings)
    (net : String → FetchOutcome) (targetUrl : String) : FetchTextResult :=
  let cleanTarget := jsTrim targetUrl
  match memKey with
  | some k =>
    if k = "" then finishLoop [] (proxyLoop net cleanTarget (proxiesList settings) none false)
    else
      let url1 := nomadFetchUrl k memUrl settings cleanTarget
      match net url1 with
      | .resp st body =>
        if respOk st && isValidResponse body then
          { attempts := [url1], reported := ProxyStatus.secure, outcome := .ok body }
        else
          finishLoop [url1] (proxyLoop net cleanTarget (proxiesList settings) none false)
      | .thrown _ =>
        finishLoop [url1] (proxyLoop net cleanTarget (proxiesList settings) none false)
  | none => finishLoop [] (proxyLoop net cleanTarget (proxiesList settings) none false)

lemma isValidResponse_spec {body : String} (h : isValidResponse body = true) :
    body ≠ "" ∧ strIncludes body "Access Denied" = false ∧
    strIncludes body "Proxy Error" = false ∧ strIncludes body "403 Forbidden" = false := by
  unfold isValidResponse at h
  split_ifs at h with hc
  simp only [Bool.or_eq_true, beq_iff_eq, not_or] at hc
  refine ⟨hc.1.1.1, ?_, ?_, ?_⟩
  · exact Bool.eq_false_iff.mpr hc.1.1.2
  · exact Bool.eq_false_iff.mpr hc.1.2
  · exact Bool.eq_false_iff.mpr hc.2

lemma proxyLoop_ok_valid {net : String → FetchOutcome} {ct : String} {bases : List String}
    {le : Option String} {up : Bool} {body : String} {usedPub : Bool}
    (h : (proxyLoop net ct bases le up).2 = .ok (body, usedPub)) :
    isValidResponse body = true := by
  induction bases generalizing le up with
  | nil => simp [proxyLoop] at h
  | cons b rest ih =>
    unfold proxyLoop at h
    simp only [] at h
    split at h
    · exact ih h
    · rename_i st bd hnet
      split at h
      · split at h
        · rename_i hvalid
          simp at h
          rw [← h.1]
          exact hvalid
        · exact ih h
      · exact ih h

lemma finishLoop_ok {pre : List String} {r : List String × Except (Option String) (String × Bool)}
    {body : String} (h : (finishLoop pre r).outcome = .ok body) :
    ∃ up, r.2 = .ok (body, up) := by
  rcases r with ⟨as, ex⟩
  cases ex with
  | ok p =>
    rcases p with ⟨b, up⟩
    simp [finishLoop] at h
    exact ⟨up, by rw [h]⟩
  | error le => simp [finishLoop] at h

/-- Claim C10: `fetchText` never returns a body containing any of the
failure markers and never returns the empty string: every tier response is
filtered through `isValidResponse`, so a target page that legitimately
contains a marker can never be fetched successfully through the chain. -/
theorem C10_no_failure_markers (memKey memUrl : Option String)
    (settings : Option AppSettings) (net : String → FetchOutcome)
    (targetUrl body : String)
    (h : (fetchText memKey memUrl settings net targetUrl).outcome = .ok body) :
    body ≠ "" ∧ strIncludes body "Access Denied" = false ∧
    strIncludes body "Proxy Error" = false ∧ strIncludes body "403 Forbidden" = false := by
  apply isValidResponse_spec
  unfold fetchText at h
  simp only [] at h
  split at h
  · split at h
    · obtain ⟨up, hok⟩ := finishLoop_ok h
      exact proxyLoop_ok_valid hok
    · split at h
      · rename_i st bd hnet
        split at h
        · rename_i hcond
          simp at h
          rw [← h]
          exact (Bool.and_eq_true _ _ |>.mp hcond).2
        · obtain ⟨up, hok⟩ := finishLoop_ok h
          exact proxyLoop_ok_valid hok
      · obtain ⟨up, hok⟩ := finishLoop_ok h
        exact proxyLoop_ok_valid hok
  · obtain ⟨up, hok⟩ := finishLoop_ok h
    exact proxyLoop_ok_valid hok

/-- Witness for C10 at a concrete chain where the second public proxy
succeeds. -/
theorem C10_witness :
    "okbody" ≠ "" ∧ strIncludes "okbody" "Access Denied" = false ∧
    strIncludes "okbody" "Proxy Error" = false ∧
    strIncludes "okbody" "403 Forbidden" = false :=
  C10_no_failure_markers none none none
    (fun u => if u = "https://corsproxy.io/?https://t" then FetchOutcome.resp 200 "okbody"
      else FetchOutcome.thrown "boom")
    "https://t" "okbody" (by rfl)

/-- A tier attempt fails: the fetch throws, or the response is non-ok, or
the body is invalid. -/
def tierFails (net : String → FetchOutcome) (url : String) : Bool :=
  match net url with
  | .thrown _ => true
  | .resp st body => !(respOk st && isValidResponse body)

/-- The error message a loop tier contributes to `lastError`: the thrown
message, or the synthesized non-ok-status message; an ok-but-invalid
response contributes nothing. -/
def loopCaptured (net : String → FetchOutcome) (cleanTarget base : String) : Option String :=
  match net (jsTrim base ++ encodeURIComponentModel cleanTarget) with
  | .thrown e => some e
  | .resp st _ =>
    if respOk st then none
    else some ("Proxy " ++ jsTrim base ++ " returned " ++ toString st)

/-- The final value of the loop accumulator `lastError` after walking the
given proxy bases: the last contributed error, else the seed. -/
def lastCapturedFrom (net : String → FetchOutcome) (cleanTarget : String)
    (bases : List String) (acc : Option String) : Option String :=
  match bases with
  | [] => acc
  | b :: rest =>
    lastCapturedFrom net cleanTarget rest
      (match loopCaptured net cleanTarget b with
       | some e => some e
       | none => acc)

lemma proxyLoop_all_fail {net : String → FetchOutcome} {ct : String} {bases : List String}
    (le : Option String) (up : Bool)
    (hfail : ∀ b ∈ bases, tierFails net (jsTrim b ++ encodeURIComponentModel ct) = true) :
    proxyLoop net ct bases le up =
      (bases.map (fun b => jsTrim b ++ encodeURIComponentModel ct),
       .error (lastCapturedFrom net ct bases le)) := by
  induction bases generalizing le up with
  | nil => simp [proxyLoop, lastCapturedFrom]
  | cons b rest ih =>
    have hb := hfail b (by simp)
    have hrest : ∀ x ∈ rest, tierFails net (jsTrim x ++ encodeURIComponentModel ct) = true :=
      fun x hx => hfail x (by simp [hx])
    unfold proxyLoop lastCapturedFrom
    simp only []
    unfold tierFails at hb
    split
    · rename_i e hnet
      rw [hnet] at hb
      rw [ih (some e) _ hrest]
      simp [loopCaptured, hnet, List.map]
    · rename_i st bd hnet
      rw [hnet] at hb
      simp only [Bool.not_eq_eq_eq_not, Bool.not_true, Bool.and_eq_false_iff] at hb
      by_cases hok : respOk st = true
      · rw [if_pos hok]
        have hval : isValidResponse bd = false := by
          rcases hb with h | h
          · exact absurd hok (by simp [h])
          · exact h
        rw [if_neg (by simp [hval])]
        rw [ih le _ hrest]
        simp [loopCaptured, hnet, hok]
      · rw [if_neg hok]
        rw [ih _ _ hrest]
        simp [loopCaptured, hnet, if_neg hok]

/-- Claim C5: for every target URL, if every configured and default tier
fails (thrown network error, non-success status, or invalid/failure-marker
body), `fetchText` attempts every tier, reports status `none`, and throws
the last error captured across the loop tiers — or the generic
all-proxies-failed error if none was captured (invalid bodies capture
nothing, and the authenticated tier's own failure is caught without being
captured). -/
theorem C5_all_tiers_exhausted (memKey memUrl : Option String)
    (settings : Option AppSettings) (net : String → FetchOutcome) (targetUrl : String)
    (hnomad : ∀ k, memKey = some k → k ≠ "" →
      tierFails net (nomadFetchUrl k memUrl settings (jsTrim targetUrl)) = true)
    (hloop : ∀ b ∈ proxiesList settings,
      tierFails net (jsTrim b ++ encodeURIComponentModel (jsTrim targetUrl)) = true) :
    fetchText memKey memUrl settings net targetUrl =
      { attempts :=
          (match memKey with
           | some k =>
             if k = "" then []
             else [nomadFetchUrl k memUrl settings (jsTrim targetUrl)]
           | none => []) ++
          (proxiesList settings).map
            (fun b => jsTrim b ++ encodeURIComponentModel (jsTrim targetUrl)),
        reported := ProxyStatus.none,
        outcome := .error (resolveErr
          (lastCapturedFrom net (jsTrim targetUrl) (proxiesList settings) none)) } := by
  unfold fetchText
  match hmk : memKey with
  | Option.none =>
    dsimp only
    rw [proxyLoop_all_fail Option.none false hloop]
    simp [finishLoop]
  | Option.some k =>
    dsimp only
    by_cases hk : k = ""
    · rw [if_pos hk]
      rw [proxyLoop_all_fail Option.none false hloop]
      simp [finishLoop, hk]
    · rw [if_neg hk]
      have hn := hnomad k rfl hk
      unfold tierFails at hn
      split
      · rename_i st bd hnet
        rw [hnet] at hn
        simp only [Bool.not_eq_eq_eq_not, Bool.not_true] at hn
        rw [if_neg (by simp [hn])]
        rw [proxyLoop_all_fail Option.none false hloop]
        simp [finishLoop, hk]
      · rw [proxyLoop_all_fail Option.none false hloop]
        simp [finishLoop, hk]

/-- Witness for C5: a concrete configuration in which the authenticated
tier and both default public proxies all fail; the thrown error carries the
last captured loop error. -/
theorem C5_witness :
    fetchText (some "k1") none none (fun _ => FetchOutcome.thrown "net down") "https://t" =
      { attempts := ["https://nomad.xoopserver.workers.dev/?url=https://t&key=k1",
          "https://api.allorigins.win/raw?url=https://t", "https://corsproxy.io/?https://t"],
        reported := ProxyStatus.none,
        outcome := .error "net down" } := by
  have h := C5_all_tiers_exhausted (some "k1") none none
    (fun _ => FetchOutcome.thrown "net down") "https://t"
    (by
      intro k hk hne
      cases hk
      rfl)
    (by
      intro b hb
      rfl)
  rw [h]
  rfl

/-- Written from the spec's words (section 4.6): the configured tiers in
strict priority order — the authenticated worker (only when a key is active
in memory, tagged `Option.none`), then the custom proxy when configured,
then public proxies 1 and 2 (override or documented default). Each entry is
the loop base (for the URL-marker classification) paired with the fetch
URL. -/
def specTiers (memKey memUrl : Option String) (settings : Option AppSettings)
    (cleanTarget : String) : List (Option String × String) :=
  (match memKey with
   | some k =>
     if k = "" then []
     else [(Option.none, nomadFetchUrl k memUrl settings cleanTarget)]
   | none => []) ++
  (proxiesList settings).map
    (fun b => (some (jsTrim b), jsTrim b ++ encodeURIComponentModel cleanTarget))

/-- Written from the spec's words (section 4.6), with the status rule
amended to what the code computes: walk the tiers in order; the first tier
whose response is ok and valid wins and its body is returned, with status
`secure` for the authenticated tier and otherwise `public` when any loop
proxy attempted so far carries an allorigins/corsproxy marker, else
`custom`; failures advance to the next tier, loop tiers capturing thrown
or non-ok-status errors; after exhaustion the status is `none` and the last
captured error (or the generic message) is thrown. -/
def specWalk (net : String → FetchOutcome) :
    List (Option String × String) → Bool → Option String → FetchTextResult
  | [], _, lastCaptured =>
    { attempts := [], reported := ProxyStatus.none,
      outcome := .error (resolveErr lastCaptured) }
  | (baseOpt, url) :: rest, publicSeen, lastCaptured =>
    let publicSeen' :=
      match baseOpt with
      | some b => publicSeen || (strIncludes b "allorigins" || strIncludes b "corsproxy")
      | none => publicSeen
    match net url with
    | .resp st body =>
      if respOk st && isValidResponse body then
        { attempts := [url],
          reported :=
            match baseOpt with
            | some _ => if publicSeen' then ProxyStatus.public else ProxyStatus.custom
            | none => ProxyStatus.secure,
          outcome := .ok body }
      else
        let r := specWalk net rest publicSeen'
          (match baseOpt with
           | some b =>
             if respOk st then lastCaptured
             else some ("Proxy " ++ b ++ " returned " ++ toString st)
           | none => lastCaptured)
        { attempts := url :: r.attempts, reported := r.reported, outcome := r.outcome }
    | .thrown e =>
      let r := specWalk net rest publicSeen'
        (match baseOpt with
         | some _ => some e
         | none => lastCaptured)
      { attempts := url :: r.attempts, reported := r.reported, outcome := r.outcome }

lemma finishLoop_cons (url : String)
    (r : List String × Except (Option String) (String × Bool)) :
    finishLoop [] (url :: r.1, r.2) =
      { attempts := url :: (finishLoop [] r).attempts,
        reported := (finishLoop [] r).reported,
        outcome := (finishLoop [] r).outcome } := by
  rcases r with ⟨as, ex⟩
  cases ex with
  | ok p => rcases p with ⟨b, up⟩; simp [finishLoop]
  | error le => simp [finishLoop]

lemma proxyLoop_eq_specWalk (net : String → FetchOutcome) (ct : String)
    (bases : List String) (le : Option String) (up : Bool) :
    finishLoop [] (proxyLoop net ct bases le up) =
      specWalk net
        (bases.map (fun b => (some (jsTrim b), jsTrim b ++ encodeURIComponentModel ct)))
        up le := by
  induction bases generalizing le up with
  | nil => simp [proxyLoop, specWalk, finishLoop]
  | cons b rest ih =>
    unfold proxyLoop specWalk
    dsimp only [List.map]
    split
    · rename_i e hnet
      rw [hnet]
      dsimp only
      rw [finishLoop_cons, ih (some e) _]
    · rename_i st bd hnet
      rw [hnet]
      dsimp only
      by_cases hok : respOk st = true
      · by_cases hval : isValidResponse bd = true
        · rw [if_pos hok, if_pos hval, if_pos (by simp [hok, hval])]
          simp [finishLoop]
        · rw [if_pos hok, if_neg (by simp [hval]), if_neg (by simp [hok, hval]), if_pos hok]
          rw [finishLoop_cons, ih le _]
      · rw [if_neg hok, if_neg (by simp [hok]), if_neg hok]
        rw [finishLoop_cons, ih _ _]

lemma finishLoop_pre (url : String)
    (r : List String × Except (Option String) (String × Bool)) :
    finishLoop [url] r =
      { attempts := url :: (finishLoop [] r).attempts,
        reported := (finishLoop [] r).reported,
        outcome := (finishLoop [] r).outcome } := by
  rcases r with ⟨as, ex⟩
  cases ex with
  | ok p => rcases p with ⟨b, up⟩; simp [finishLoop]
  | error le => simp [finishLoop]

/-- Claim C4 (amended): for every target URL and proxy configuration,
`fetchText` behaves exactly like the spec-side walk of the tiers in strict
priority order (authenticated worker, custom proxy, public proxy 1, public
proxy 2): the first tier whose response is valid wins and its content is
returned, no later tier is attempted after a success, and the reported
status is `secure` for the authenticated tier and otherwise derived from
the URL-marker latch (`public` when any attempted loop proxy contains
allorigins or corsproxy, else `custom`). -/
theorem C4_chain_refinement (memKey memUrl : Option String)
    (settings : Option AppSettings) (net : String → FetchOutcome) (targetUrl : String) :
    fetchText memKey memUrl settings net targetUrl =
      specWalk net (specTiers memKey memUrl settings (jsTrim targetUrl)) false none := by
  unfold fetchText specTiers
  match memKey with
  | Option.none =>
    dsimp only
    exact proxyLoop_eq_specWalk net (jsTrim targetUrl) (proxiesList settings) none false
  | Option.some k =>
    dsimp only
    by_cases hk : k = ""
    · rw [if_pos hk, if_pos hk]
      dsimp only [List.nil_append]
      exact proxyLoop_eq_specWalk net (jsTrim targetUrl) (proxiesList settings) none false
    · rw [if_neg hk, if_neg hk]
      dsimp only [List.cons_append, List.nil_append]
      rw [specWalk]
      dsimp only
      split
      · rename_i st bd hnet
        by_cases hcond : (respOk st && isValidResponse bd) = true
        · rw [if_pos hcond, if_pos hcond]
        · rw [if_neg hcond, if_neg hcond]
          rw [finishLoop_pre, proxyLoop_eq_specWalk]
      · rw [finishLoop_pre, proxyLoop_eq_specWalk]

/-- Counterexample to claim C4 as stated: with no authenticated key, no
custom proxy and a user-overridden public proxy 1 whose URL carries no
allorigins/corsproxy marker, the first and winning tier is public proxy 1,
yet the reported status is `custom`, not the tier's category `public` —
the code classifies the status by URL substring, not by tier position. -/
theorem C4_counterexample :
    fetchText none none
      (some ⟨none, none, none, none, none, none, none,
        some "https://relay.example/fetch?u=", none, none⟩)
      (fun u => if u = "https://relay.example/fetch?u=https://t"
        then FetchOutcome.resp 200 "hello-page" else FetchOutcome.thrown "down")
      "https://t" =
      { attempts := ["https://relay.example/fetch?u=https://t"],
        reported := ProxyStatus.custom,
        outcome := .ok "hello-page" } ∧
    ProxyStatus.custom ≠ ProxyStatus.public :=
  ⟨rfl, by decide⟩

/-! ## FeedCache (`mediaResolver.getVideos` in `src/services/mediaResolver.ts`) -/

/-- Embeds the `Platform` union from `src/types.ts`. -/
inductive Platform where
  | youtube
  | vimeo
  | dailymotion
deriving DecidableEq, Repr

/-- Embeds the media item kind union from `src/types.ts`. -/
inductive ItemType where
  | channel
  | playlist
  | video
deriving DecidableEq, Repr

/-- Embeds the `VideoItem` interface from `src/types.ts`. -/
structure VideoItem where
  id : String
  title : String
  link : String
  pubDate : String
  thumbnail : String
  author : String
  description : String
  platform : Platform
deriving DecidableEq, Repr

/-- Embeds the `MediaItem` interface from `src/types.ts`, restricted to the
fields `getVideos` reads. -/
structure MediaItem where
  name : String
  sourceId : String
  itemType : ItemType
  platform : Option Platform
  cachedContent : Option (List VideoItem)
  lastFetched : Option Nat
deriving DecidableEq, Repr

/-- Embeds `DEFAULT_CACHE_DURATION` from `src/services/mediaResolver.ts`:
8 hours in milliseconds. -/
def DEFAULT_CACHE_DURATION : Nat := 8 * 60 * 60 * 1000

/-- The effective TTL: `settings?.feedCacheDuration || DEFAULT_CACHE_DURATION`
(zero and absent are both falsy). -/
def feedCacheDurationOf (settings : Option AppSettings) : Nat :=
  match settings with
  | some s =>
    match s.feedCacheDuration with
    | some d => if d = 0 then DEFAULT_CACHE_DURATION else d
    | none => DEFAULT_CACHE_DURATION
  | none => DEFAULT_CACHE_DURATION

/-- Observable result of one `getVideos` call: whether a platform fetcher
was invoked, the returned videos or the surfaced error, and the IndexedDB
writes issued (store name and updated item). -/
structure GetVideosResult where
  fetcherCalled : Bool
  outcome : Except String (List VideoItem)
  dbUpdates : List (String × MediaItem)
deriving Repr

/-- Embeds the network-fetch half of `getVideos` (steps 2 and 3): dispatch
to the platform fetcher (default plugin `youtube` for legacy items), and on
a non-empty result for a channel or playlist overwrite the cache entry with
the new list and the current timestamp. -/
def getVideosFetch (item : MediaItem) (now : Nat)
    (fetcher : Platform → MediaItem → Except String (List VideoItem)) : GetVideosResult :=
  let platform := item.platform.getD Platform.youtube
  match fetcher platform item with
  | .error e => { fetcherCalled := true, outcome := .error e, dbUpdates := [] }
  | .ok videos =>
    if videos.length > 0 ∧
        (item.itemType = ItemType.channel ∨ item.itemType = ItemType.playlist) then
      { fetcherCalled := true, outcome := .ok videos,
        dbUpdates := [(if item.itemType = ItemType.channel then "channels" else "playlists",
          { item with cachedContent := some videos, lastFetched := some now })] }
    else
      { fetcherCalled := true, outcome := .ok videos, dbUpdates := [] }

/-- Embeds `mediaResolver.getVideos` from `src/services/mediaResolver.ts`
(lines 218-265): serve the cached list when not forced, a cached list and a
truthy (non-zero) timestamp exist, and the age is below the TTL; otherwise
fetch live. `Date.now()` is passed as `now`. -/
def getVideos (item : MediaItem) (settings : Option AppSettings) (now : Nat)
    (forceRefresh : Bool)
    (fetcher : Platform → MediaItem → Except String (List VideoItem)) : GetVideosResult :=
  match item.cachedContent, item.lastFetched with
  | some cached, some lf =>
    if forceRefresh = false ∧ lf ≠ 0 ∧ now - lf < feedCacheDurationOf settings then
      { fetcherCalled := false, outcome := .ok cached, dbUpdates := [] }
    else getVideosFetch item now fetcher
  | _, _ => getVideosFetch item now fetcher

/-- Claim C6: a `getVideos` call with `forceRefresh = false` on an item
whose cached list is younger than the configured TTL (default 8 hours)
returns the cached list without invoking any platform fetcher or issuing
any write, while `forceRefresh = true` always performs the live fetch
(which does invoke the fetcher) regardless of the cache's age. -/
theorem C6_cache_within_ttl (item : MediaItem) (settings : Option AppSettings)
    (now : Nat) (fetcher : Platform → MediaItem → Except String (List VideoItem))
    (cached : List VideoItem) (lf : Nat)
    (hc : item.cachedContent = some cached) (hl : item.lastFetched = some lf)
    (hlf : lf ≠ 0) (hage : now - lf < feedCacheDurationOf settings) :
    getVideos item settings now false fetcher =
      { fetcherCalled := false, outcome := .ok cached, dbUpdates := [] } ∧
    getVideos item settings now true fetcher = getVideosFetch item now fetcher ∧
    (getVideosFetch item now fetcher).fetcherCalled = true ∧
    DEFAULT_CACHE_DURATION = 28800000 := by
  refine ⟨?_, ?_, ?_, rfl⟩
  · unfold getVideos
    rw [hc, hl]
    dsimp only
    rw [if_pos ⟨rfl, hlf, hage⟩]
  · unfold getVideos
    rw [hc, hl]
    dsimp only
    rw [if_neg (by simp)]
  · unfold getVideosFetch
    dsimp only
    split
    · rfl
    · split <;> rfl

/-- Witness for C6 at a concrete cached item inside the TTL window. -/
theorem C6_witness :
    getVideos
      ⟨"chan", "id1", ItemType.channel, some Platform.youtube,
        some [⟨"v1", "t", "l", "d", "th", "a", "de", Platform.youtube⟩], some 1000⟩
      none 2000 false (fun _ _ => .error "no network") =
      { fetcherCalled := false,
        outcome := .ok [⟨"v1", "t", "l", "d", "th", "a", "de", Platform.youtube⟩],
        dbUpdates := [] } ∧
    (getVideos
      ⟨"chan", "id1", ItemType.channel, some Platform.youtube,
        some [⟨"v1", "t", "l", "d", "th", "a", "de", Platform.youtube⟩], some 1000⟩
      none 2000 true (fun _ _ => .error "no network")).fetcherCalled = true := by
  obtain ⟨h1, h2, h3, _⟩ := C6_cache_within_ttl
    ⟨"chan", "id1", ItemType.channel, some Platform.youtube,
      some [⟨"v1", "t", "l", "d", "th", "a", "de", Platform.youtube⟩], some 1000⟩
    none 2000 (fun _ _ => .error "no network")
    [⟨"v1", "t", "l", "d", "th", "a", "de", Platform.youtube⟩] 1000
    rfl rfl (by decide) (by decide)
  exact ⟨h1, by rw [h2]; exact h3⟩

/-- Claim C7: if the live refresh fetch fails, `getVideos` issues no store
write at all — the previously cached content and its fetched-at timestamp
stay untouched — and, whenever the fetch path was taken, the error is
surfaced to the caller. -/
theorem C7_failed_refresh_preserves_cache (item : MediaItem)
    (settings : Option AppSettings) (now : Nat) (forceRefresh : Bool)
    (fetcher : Platform → MediaItem → Except String (List VideoItem)) (e : String)
    (hf : fetcher (item.platform.getD Platform.youtube) item = .error e) :
    (getVideos item settings now forceRefresh fetcher).dbUpdates = [] ∧
    ((getVideos item settings now forceRefresh fetcher).fetcherCalled = true →
      (getVideos item settings now forceRefresh fetcher).outcome = .error e) := by
  have hfetch : getVideosFetch item now fetcher =
      { fetcherCalled := true, outcome := .error e, dbUpdates := [] } := by
    unfold getVideosFetch
    dsimp only
    rw [hf]
  unfold getVideos
  match item.cachedContent, item.lastFetched with
  | some cached, some lf =>
    dsimp only
    split
    · exact ⟨rfl, by intro h; exact absurd h (by simp)⟩
    · rw [hfetch]
      exact ⟨rfl, fun _ => rfl⟩
  | some cached, Option.none =>
    dsimp only
    rw [hfetch]
    exact ⟨rfl, fun _ => rfl⟩
  | Option.none, some lf =>
    dsimp only
    rw [hfetch]
    exact ⟨rfl, fun _ => rfl⟩
  | Option.none, Option.none =>
    dsimp only
    rw [hfetch]
    exact ⟨rfl, fun _ => rfl⟩

/-- Witness for C7 at a concrete stale cached item and a failing fetcher. -/
theorem C7_witness :
    (getVideos
      ⟨"chan", "id1", ItemType.channel, some Platform.youtube,
        some [⟨"v1", "t", "l", "d", "th", "a", "de", Platform.youtube⟩], some 1000⟩
      none 999999999 false (fun _ _ => .error "fetch failed")).dbUpdates = [] ∧
    (getVideos
      ⟨"chan", "id1", ItemType.channel, some Platform.youtube,
        some [⟨"v1", "t", "l", "d", "th", "a", "de", Platform.youtube⟩], some 1000⟩
      none 999999999 false (fun _ _ => .error "fetch failed")).outcome =
      .error "fetch failed" := by
  obtain ⟨h1, h2⟩ := C7_failed_refresh_preserves_cache
    ⟨"chan", "id1", ItemType.channel, some Platform.youtube,
      some [⟨"v1", "t", "l", "d", "th", "a", "de", Platform.youtube⟩], some 1000⟩
    none 999999999 false (fun _ _ => .error "fetch failed") "fetch failed" rfl
  exact ⟨h1, h2 (by rfl)⟩
